import Mathlib

/-!
Verification development for the StyleHive dashboard analytics core.

The definitions below are a shallow embedding of the Python sources:
`src/utils/data_prep.py` (transaction store, basket grouping, co-occurrence),
`src/utils/recommenders.py` (market-basket analyzer, collaborative filtering,
hybrid recommender) and `src/utils/insights.py` (business insights).
Pandas dataframes are modelled as lists of rows, floating-point scores as
rationals, and python dicts/sets as association lists / lists with explicit
membership.  Theorems settle the specification claims about these
definitions.
-/

/-- A transaction row of the loaded dataframe: CustomerID, Date (days are
modelled as naturals) and Product, as in `src/utils/data_prep.py`. -/
structure Row where
  customerID : Nat
  date : Nat
  product : String
deriving DecidableEq

/-- The groupby key `(CustomerID, Date)` used by `get_basket_data`,
`get_co_occurrence_matrix` and `get_kpis`. -/
def keyOf (r : Row) : Nat × Nat := (r.customerID, r.date)

/-- Lexicographic order on groupby keys: pandas `groupby` sorts group keys. -/
def keyLe (a b : Nat × Nat) : Prop := a.1 < b.1 ∨ (a.1 = b.1 ∧ a.2 ≤ b.2)

instance : DecidableRel keyLe := fun a b => by
  unfold keyLe; exact inferInstance

/-- The distinct `(CustomerID, Date)` keys of the dataframe in sorted order,
as pandas `groupby(['CustomerID', 'Date'])` produces them. -/
def groupKeys (df : List Row) : List (Nat × Nat) :=
  List.insertionSort keyLe ((df.map keyOf).dedup)

/-- `df.groupby(['CustomerID', 'Date'])['Product'].apply(list).tolist()`
from `data_prep.py`: one product list (basket) per customer-visit. -/
def basketsOf (df : List Row) : List (List String) :=
  (groupKeys df).map (fun k => (df.filter (fun r => decide (keyOf r = k))).map Row.product)

/-- The contribution of one basket to entry `(p, q)` of the co-occurrence
matrix: `DataPreprocessor.get_co_occurrence_matrix` runs
`for i, product1 in enumerate(basket): for j, product2 in enumerate(basket):
if i != j: co_occurrence.loc[product1, product2] += 1`. -/
def basketCo (b : List String) (p q : String) : Nat :=
  ∑ i ∈ Finset.range b.length, ∑ j ∈ Finset.range b.length,
    if i ≠ j ∧ b.getD i "" = p ∧ b.getD j "" = q then 1 else 0

/-- Entry `(p, q)` of the co-occurrence matrix of
`DataPreprocessor.get_co_occurrence_matrix`: baskets of size > 1 each
contribute their position-pair counts. -/
def coOccurrence (df : List Row) (p q : String) : Nat :=
  ((basketsOf df).map (fun b => if 1 < b.length then basketCo b p q else 0)).sum

theorem basketCo_symm (b : List String) (p q : String) :
    basketCo b p q = basketCo b q p := by
  unfold basketCo
  rw [Finset.sum_comm]
  refine Finset.sum_congr rfl (fun j _ => Finset.sum_congr rfl (fun i _ => ?_))
  refine if_congr ?_ rfl rfl
  constructor
  · rintro ⟨h1, h2, h3⟩; exact ⟨Ne.symm h1, h3, h2⟩
  · rintro ⟨h1, h2, h3⟩; exact ⟨Ne.symm h1, h3, h2⟩

theorem basketCo_diag_eq_zero (b : List String) (hb : b.Nodup) (p : String) :
    basketCo b p p = 0 := by
  unfold basketCo
  refine Finset.sum_eq_zero (fun i hi => Finset.sum_eq_zero (fun j hj => ?_))
  rw [if_neg]
  rintro ⟨hij, hip, hjp⟩
  apply hij
  have hi' : i < b.length := Finset.mem_range.mp hi
  have hj' : j < b.length := Finset.mem_range.mp hj
  have gi : b.get ⟨i, hi'⟩ = p := by
    rw [List.get_eq_getElem, ← List.getD_eq_getElem b "" hi']; exact hip
  have gj : b.get ⟨j, hj'⟩ = p := by
    rw [List.get_eq_getElem, ← List.getD_eq_getElem b "" hj']; exact hjp
  have h2 : (⟨i, hi'⟩ : Fin b.length) = ⟨j, hj'⟩ :=
    List.nodup_iff_injective_get.mp hb (gi.trans gj.symm)
  injection h2 with h3

/-- C1: for every dataframe whose baskets have at most one row per product,
the co-occurrence matrix of `DataPreprocessor.get_co_occurrence_matrix` is
symmetric (`count(A,B) = count(B,A)` for all products) and every diagonal
entry `(A,A)` is zero. -/
theorem coOccurrence_symm_zero_diag (df : List Row)
    (h : ∀ b ∈ basketsOf df, b.Nodup) :
    (∀ p q : String, coOccurrence df p q = coOccurrence df q p) ∧
    (∀ p : String, coOccurrence df p p = 0) := by
  constructor
  · intro p q
    unfold coOccurrence
    have hpt : ∀ b : List String,
        (if 1 < b.length then basketCo b p q else 0) =
          (if 1 < b.length then basketCo b q p else 0) := by
      intro b; rw [basketCo_symm]
    simp only [hpt]
  · intro p
    unfold coOccurrence
    apply List.sum_eq_zero
    intro x hx
    rw [List.mem_map] at hx
    obtain ⟨b, hb, rfl⟩ := hx
    by_cases hlen : 1 < b.length
    · rw [if_pos hlen]; exact basketCo_diag_eq_zero b (h b hb) p
    · rw [if_neg hlen]

/-- A concrete three-row dataframe: customer 1 buys products A and B on day 1,
customer 2 buys A on day 1. -/
def dfC1 : List Row := [⟨1, 1, "A"⟩, ⟨1, 1, "B"⟩, ⟨2, 1, "A"⟩]

/-- Witness for C1 at a concrete dataframe with duplicate-free baskets. -/
theorem coOccurrence_symm_zero_diag_witness :
    (∀ p q : String, coOccurrence dfC1 p q = coOccurrence dfC1 q p) ∧
    (∀ p : String, coOccurrence dfC1 p p = 0) :=
  coOccurrence_symm_zero_diag dfC1 (by decide)

/-- The filter-then-truncate step of `DataPreprocessor.get_basket_data`:
single-item baskets are dropped, then if more than 1000 multi-item baskets
remain only the first 1000 are kept. -/
def basketTrim (baskets : List (List String)) : List (List String) :=
  if 1000 < (baskets.filter (fun b => decide (1 < b.length))).length then
    (baskets.filter (fun b => decide (1 < b.length))).take 1000
  else
    baskets.filter (fun b => decide (1 < b.length))

/-- `DataPreprocessor.get_basket_data`: group the dataframe into baskets,
drop single-item baskets, truncate to the first 1000 baskets if more remain. -/
def get_basket_data (df : List Row) : List (List String) :=
  basketTrim (basketsOf df)

/-- C10: basket extraction drops every basket of size at most 1 and, whenever
more than 1000 multi-item baskets remain, silently truncates to the first
1000 of them in grouping order; the result is that prefix, has exactly 1000
baskets, contains only multi-item baskets, and is what feeds market-basket
mining via `get_basket_data`. -/
theorem basket_extraction_truncation (baskets : List (List String))
    (h : 1000 < (baskets.filter (fun b => decide (1 < b.length))).length) :
    basketTrim baskets = (baskets.filter (fun b => decide (1 < b.length))).take 1000 ∧
    (basketTrim baskets).length = 1000 ∧
    (∀ b ∈ basketTrim baskets, 1 < b.length) ∧
    basketTrim baskets <+: baskets.filter (fun b => decide (1 < b.length)) ∧
    (∀ df : List Row, get_basket_data df = basketTrim (basketsOf df)) := by
  have he : basketTrim baskets =
      (baskets.filter (fun b => decide (1 < b.length))).take 1000 := by
    unfold basketTrim
    rw [if_pos h]
  refine ⟨he, ?_, ?_, ?_, fun df => rfl⟩
  · rw [he, List.length_take]
    omega
  · intro b hb
    rw [he] at hb
    have hb2 : b ∈ baskets.filter (fun b => decide (1 < b.length)) :=
      (List.take_sublist 1000 _).mem hb
    exact of_decide_eq_true (List.mem_filter.mp hb2).2
  · rw [he]
    exact List.take_prefix 1000 _

/-- A basket list with 1001 multi-item baskets, for the C10 witness. -/
def trimEx : List (List String) := List.replicate 1001 ["A", "B"]

set_option maxRecDepth 40000 in
/-- Witness for C10 at a concrete basket list with 1001 multi-item baskets. -/
theorem basket_extraction_truncation_witness :
    basketTrim trimEx = (trimEx.filter (fun b => decide (1 < b.length))).take 1000 ∧
    (basketTrim trimEx).length = 1000 ∧
    (∀ b ∈ basketTrim trimEx, 1 < b.length) ∧
    basketTrim trimEx <+: trimEx.filter (fun b => decide (1 < b.length)) ∧
    (∀ df : List Row, get_basket_data df = basketTrim (basketsOf df)) :=
  basket_extraction_truncation trimEx (by decide)

/-- An association rule row as `MarketBasketAnalyzer` mines it with mlxtend:
antecedent and consequent product sets (modelled as lists) and the
support/confidence/lift metrics (floats modelled as rationals). -/
structure Rule where
  antecedents : List String
  consequents : List String
  support : ℚ
  confidence : ℚ
  lift : ℚ
deriving DecidableEq

/-- The descending sort key of
`rules.sort_values(['confidence', 'lift'], ascending=False)`: by confidence
descending, ties broken by lift descending. -/
def ruleOrder (a b : Rule) : Prop :=
  b.confidence < a.confidence ∨ (a.confidence = b.confidence ∧ b.lift ≤ a.lift)

instance : DecidableRel ruleOrder := fun a b => by
  unfold ruleOrder; exact inferInstance

instance : IsTotal Rule ruleOrder := by
  constructor
  intro a b
  unfold ruleOrder
  rcases lt_trichotomy a.confidence b.confidence with h | h | h
  · right; left; exact h
  · rcases le_total a.lift b.lift with h2 | h2
    · right; right; exact ⟨h.symm, h2⟩
    · left; right; exact ⟨h, h2⟩
  · left; left; exact h

instance : IsTrans Rule ruleOrder := by
  constructor
  intro a b c hab hbc
  unfold ruleOrder at *
  rcases hab with h1 | ⟨h1, h1l⟩ <;> rcases hbc with h2 | ⟨h2, h2l⟩
  · left; exact h2.trans h1
  · left; exact h2 ▸ h1
  · left; exact h1 ▸ h2
  · right; exact ⟨h1.trans h2, h2l.trans h1l⟩

/-- A recommendation record as `MarketBasketAnalyzer.get_recommendations`
returns it (the human-readable explanation string is omitted). -/
structure Rec where
  product : String
  confidence : ℚ
  lift : ℚ
  support : ℚ
deriving DecidableEq

/-- The record appended for a rule whose first consequent is `c`. -/
def mkRec (r : Rule) (c : String) : Rec :=
  ⟨c, r.confidence, r.lift, r.support⟩

/-- The consequent product the code extracts: `list(rule['consequents'])[0]`. -/
def firstConsequent (r : Rule) : String := r.consequents.headD ""

/-- `MarketBasketAnalyzer.get_recommendations(product, top_n)`: keep rules
whose antecedents contain the product, sort by (confidence desc, lift desc),
iterate over the first `top_n` rows appending each consequent distinct from
the query product. -/
def get_recommendations (rules : List Rule) (product : String) (top_n : Nat) :
    List Rec :=
  if rules.isEmpty then []
  else
    let product_rules := rules.filter (fun r => decide (product ∈ r.antecedents))
    if product_rules.isEmpty then []
    else
      (((List.insertionSort ruleOrder product_rules).take top_n).filter
          (fun r => decide (firstConsequent r ≠ product))).map
        (fun r => mkRec r (firstConsequent r))

/-- The descending order of recommendation records induced by `ruleOrder`. -/
def recOrder (a b : Rec) : Prop :=
  b.confidence < a.confidence ∨ (a.confidence = b.confidence ∧ b.lift ≤ a.lift)

/-- C3: `get_recommendations` returns at most `top_n` records, never the
query product itself, only consequents of rules whose antecedents contain the
query product, and the output is ordered by confidence descending with ties
broken by lift descending. -/
theorem get_recommendations_spec (rules : List Rule) (product : String)
    (top_n : Nat) :
    (get_recommendations rules product top_n).length ≤ top_n ∧
    (∀ rec ∈ get_recommendations rules product top_n, rec.product ≠ product) ∧
    (∀ rec ∈ get_recommendations rules product top_n,
      ∃ r ∈ rules, product ∈ r.antecedents ∧ rec = mkRec r (firstConsequent r)) ∧
    (get_recommendations rules product top_n).Pairwise recOrder := by
  unfold get_recommendations
  by_cases h0 : rules.isEmpty
  · simp [h0]
  rw [if_neg h0]
  by_cases h1 : (rules.filter (fun r => decide (product ∈ r.antecedents))).isEmpty
  · rw [if_pos h1]
    simp
  rw [if_neg h1]
  refine ⟨?_, ?_, ?_, ?_⟩
  · rw [List.length_map]
    exact le_trans (List.Sublist.length_le (List.filter_sublist _))
      (List.length_take_le top_n _)
  · intro rec hrec
    rw [List.mem_map] at hrec
    obtain ⟨r, hr, rfl⟩ := hrec
    have := (List.mem_filter.mp hr).2
    exact of_decide_eq_true this
  · intro rec hrec
    rw [List.mem_map] at hrec
    obtain ⟨r, hr, rfl⟩ := hrec
    have hr2 : r ∈ List.insertionSort ruleOrder
        (rules.filter (fun r => decide (product ∈ r.antecedents))) :=
      ((List.take_sublist top_n _).mem ((List.mem_filter.mp hr).1))
    have hr3 := (List.perm_insertionSort ruleOrder _).mem_iff.mp hr2
    refine ⟨r, (List.mem_filter.mp hr3).1,
      of_decide_eq_true (List.mem_filter.mp hr3).2, rfl⟩
  · rw [List.pairwise_map]
    have hs : List.Pairwise ruleOrder (List.insertionSort ruleOrder
        (rules.filter (fun r => decide (product ∈ r.antecedents)))) :=
      List.sorted_insertionSort ruleOrder _
    have ht : List.Pairwise ruleOrder ((List.insertionSort ruleOrder
        (rules.filter (fun r => decide (product ∈ r.antecedents)))).take top_n) :=
      hs.sublist (List.take_sublist top_n _)
    have hf : List.Pairwise ruleOrder (((List.insertionSort ruleOrder
        (rules.filter (fun r => decide (product ∈ r.antecedents)))).take top_n).filter
          (fun r => decide (firstConsequent r ≠ product))) :=
      ht.sublist (List.filter_sublist _)
    exact hf.imp (fun h => h)

/-- The emission loop of `MarketBasketAnalyzer.get_basket_recommendations`:
walk the sorted rules, append each first consequent not yet seen, add it to
the seen set, and stop once `top_n` recommendations have been emitted. -/
def brLoop (top_n : Nat) : List Rule → List String → Nat → List Rec
  | [], _, _ => []
  | r :: rs, seen, len =>
    if firstConsequent r ∈ seen then brLoop top_n rs seen len
    else if top_n ≤ len + 1 then [mkRec r (firstConsequent r)]
    else mkRec r (firstConsequent r) :: brLoop top_n rs (firstConsequent r :: seen) (len + 1)

/-- The rule selection of `get_basket_recommendations`: a primary pass keeps
rules whose antecedents contain every basket item; only when that pass is
empty, a fallback pass keeps rules whose antecedents intersect the basket. -/
def selectBasketRules (rules : List Rule) (basket : List String) : List Rule :=
  if (rules.filter (fun r => decide (∀ x ∈ basket, x ∈ r.antecedents))).isEmpty then
    rules.filter (fun r => decide (∃ x ∈ basket, x ∈ r.antecedents))
  else
    rules.filter (fun r => decide (∀ x ∈ basket, x ∈ r.antecedents))

/-- `MarketBasketAnalyzer.get_basket_recommendations(basket, top_n)`: select
rules in two passes, sort by (confidence desc, lift desc), then emit unseen
consequents with the seen set initialised to the basket. -/
def get_basket_recommendations (rules : List Rule) (basket : List String)
    (top_n : Nat) : List Rec :=
  if rules.isEmpty then []
  else if (selectBasketRules rules basket).isEmpty then []
  else brLoop top_n (List.insertionSort ruleOrder (selectBasketRules rules basket)) basket 0

theorem brLoop_not_mem_seen (top_n : Nat) (rs : List Rule) (seen : List String)
    (len : Nat) : ∀ rec ∈ brLoop top_n rs seen len, rec.product ∉ seen := by
  induction rs generalizing seen len with
  | nil => intro rec h; exact absurd h (List.not_mem_nil rec)
  | cons r rs ih =>
    intro rec h
    unfold brLoop at h
    by_cases h1 : firstConsequent r ∈ seen
    · rw [if_pos h1] at h
      exact ih seen len rec h
    · rw [if_neg h1] at h
      by_cases h2 : top_n ≤ len + 1
      · rw [if_pos h2] at h
        rw [List.mem_singleton] at h
        rw [h]
        exact h1
      · rw [if_neg h2] at h
        rcases List.mem_cons.mp h with h3 | h3
        · rw [h3]; exact h1
        · have h4 := ih (firstConsequent r :: seen) (len + 1) rec h3
          intro h5
          exact h4 (List.mem_cons_of_mem _ h5)

theorem brLoop_products_nodup (top_n : Nat) (rs : List Rule) (seen : List String)
    (len : Nat) : ((brLoop top_n rs seen len).map Rec.product).Nodup := by
  induction rs generalizing seen len with
  | nil => simp [brLoop]
  | cons r rs ih =>
    unfold brLoop
    by_cases h1 : firstConsequent r ∈ seen
    · rw [if_pos h1]; exact ih seen len
    · rw [if_neg h1]
      by_cases h2 : top_n ≤ len + 1
      · rw [if_pos h2]; simp
      · rw [if_neg h2]
        rw [List.map_cons, List.nodup_cons]
        refine ⟨?_, ih (firstConsequent r :: seen) (len + 1)⟩
        intro hmem
        rw [List.mem_map] at hmem
        obtain ⟨rec, hrec, hprod⟩ := hmem
        have h3 := brLoop_not_mem_seen top_n rs (firstConsequent r :: seen)
          (len + 1) rec hrec
        apply h3
        rw [hprod]
        exact List.mem_cons_self _ _

theorem brLoop_mem_exists (top_n : Nat) (rs : List Rule) (seen : List String)
    (len : Nat) : ∀ rec ∈ brLoop top_n rs seen len,
    ∃ r ∈ rs, rec = mkRec r (firstConsequent r) := by
  induction rs generalizing seen len with
  | nil => intro rec h; exact absurd h (List.not_mem_nil rec)
  | cons r rs ih =>
    intro rec h
    unfold brLoop at h
    by_cases h1 : firstConsequent r ∈ seen
    · rw [if_pos h1] at h
      obtain ⟨r2, hr2, he⟩ := ih seen len rec h
      exact ⟨r2, List.mem_cons_of_mem _ hr2, he⟩
    · rw [if_neg h1] at h
      by_cases h2 : top_n ≤ len + 1
      · rw [if_pos h2] at h
        rw [List.mem_singleton] at h
        exact ⟨r, List.mem_cons_self _ _, h⟩
      · rw [if_neg h2] at h
        rcases List.mem_cons.mp h with h3 | h3
        · exact ⟨r, List.mem_cons_self _ _, h3⟩
        · obtain ⟨r2, hr2, he⟩ := ih (firstConsequent r :: seen) (len + 1) rec h3
          exact ⟨r2, List.mem_cons_of_mem _ hr2, he⟩

theorem selectBasketRules_mem (rules : List Rule) (basket : List String) :
    ∀ r ∈ selectBasketRules rules basket, r ∈ rules := by
  intro r h
  unfold selectBasketRules at h
  by_cases h1 : (rules.filter (fun r => decide (∀ x ∈ basket, x ∈ r.antecedents))).isEmpty
  · rw [if_pos h1] at h; exact (List.mem_filter.mp h).1
  · rw [if_neg h1] at h; exact (List.mem_filter.mp h).1

/-- C4: `get_basket_recommendations` never returns a product already in the
input basket and returns no duplicate products; when some rule's antecedents
contain the whole basket every returned record comes from such a primary-pass
rule, and otherwise every returned record comes from a fallback rule whose
antecedents merely intersect the basket. -/
theorem get_basket_recommendations_spec (rules : List Rule)
    (basket : List String) (top_n : Nat) :
    (∀ rec ∈ get_basket_recommendations rules basket top_n, rec.product ∉ basket) ∧
    ((get_basket_recommendations rules basket top_n).map Rec.product).Nodup ∧
    ((∃ r ∈ rules, ∀ x ∈ basket, x ∈ r.antecedents) →
      ∀ rec ∈ get_basket_recommendations rules basket top_n,
        ∃ r ∈ rules, (∀ x ∈ basket, x ∈ r.antecedents) ∧
          rec = mkRec r (firstConsequent r)) ∧
    ((¬ ∃ r ∈ rules, ∀ x ∈ basket, x ∈ r.antecedents) →
      ∀ rec ∈ get_basket_recommendations rules basket top_n,
        ∃ r ∈ rules, (∃ x ∈ basket, x ∈ r.antecedents) ∧
          rec = mkRec r (firstConsequent r)) := by
  have hout : ∀ rec ∈ get_basket_recommendations rules basket top_n,
      ∃ r ∈ selectBasketRules rules basket, rec = mkRec r (firstConsequent r) := by
    intro rec h
    unfold get_basket_recommendations at h
    by_cases h0 : rules.isEmpty
    · rw [if_pos h0] at h; exact absurd h (List.not_mem_nil rec)
    · rw [if_neg h0] at h
      by_cases h1 : (selectBasketRules rules basket).isEmpty
      · rw [if_pos h1] at h; exact absurd h (List.not_mem_nil rec)
      · rw [if_neg h1] at h
        obtain ⟨r, hr, he⟩ := brLoop_mem_exists top_n _ basket 0 rec h
        exact ⟨r, (List.perm_insertionSort ruleOrder _).mem_iff.mp hr, he⟩
  refine ⟨?_, ?_, ?_, ?_⟩
  · intro rec h
    unfold get_basket_recommendations at h
    by_cases h0 : rules.isEmpty
    · rw [if_pos h0] at h; exact absurd h (List.not_mem_nil rec)
    · rw [if_neg h0] at h
      by_cases h1 : (selectBasketRules rules basket).isEmpty
      · rw [if_pos h1] at h; exact absurd h (List.not_mem_nil rec)
      · rw [if_neg h1] at h
        exact brLoop_not_mem_seen top_n _ basket 0 rec h
  · unfold get_basket_recommendations
    by_cases h0 : rules.isEmpty
    · rw [if_pos h0]; simp
    · rw [if_neg h0]
      by_cases h1 : (selectBasketRules rules basket).isEmpty
      · rw [if_pos h1]; simp
      · rw [if_neg h1]
        exact brLoop_products_nodup top_n _ basket 0
  · intro hex rec h
    obtain ⟨r, hr, he⟩ := hout rec h
    have hne : ¬ (rules.filter
        (fun r => decide (∀ x ∈ basket, x ∈ r.antecedents))).isEmpty := by
      obtain ⟨r2, hr2, hall⟩ := hex
      rw [List.isEmpty_iff]
      intro hnil
      have : r2 ∈ rules.filter (fun r => decide (∀ x ∈ basket, x ∈ r.antecedents)) :=
        List.mem_filter.mpr ⟨hr2, decide_eq_true hall⟩
      rw [hnil] at this
      exact absurd this (List.not_mem_nil r2)
    unfold selectBasketRules at hr
    rw [if_neg hne] at hr
    exact ⟨r, (List.mem_filter.mp hr).1,
      of_decide_eq_true (List.mem_filter.mp hr).2, he⟩
  · intro hnex rec h
    obtain ⟨r, hr, he⟩ := hout rec h
    have hemp : (rules.filter
        (fun r => decide (∀ x ∈ basket, x ∈ r.antecedents))).isEmpty := by
      rw [List.isEmpty_iff, List.filter_eq_nil_iff]
      intro r2 hr2
      rw [decide_eq_true_eq]
      intro hall
      exact hnex ⟨r2, hr2, hall⟩
    unfold selectBasketRules at hr
    rw [if_pos hemp] at hr
    exact ⟨r, (List.mem_filter.mp hr).1,
      of_decide_eq_true (List.mem_filter.mp hr).2, he⟩

/-- Number of baskets containing every item of `s`. -/
def supportCount (baskets : List (List String)) (s : List String) : Nat :=
  baskets.countP (fun b => decide (∀ x ∈ s, x ∈ b))

/-- Modelled from the spec: support is the fraction of baskets containing a
given item set (Glossary and the FrequentItemset data model); the mining
itself is delegated by `MarketBasketAnalyzer.fit` to mlxtend `apriori`,
whose code is not part of this repository. -/
def support (baskets : List (List String)) (s : List String) : ℚ :=
  supportCount baskets s / baskets.length

/-- The item catalog of the encoded basket matrix
(`TransactionEncoder` columns): every product occurring in some basket. -/
def itemUniverse (baskets : List (List String)) : List String :=
  baskets.flatten.dedup

/-- Modelled from the spec: `apriori(df_baskets, min_support, use_colnames)`
mines every nonempty itemset whose support is at least `min_support`
(mlxtend code is not part of this repository). -/
def frequentItemsets (baskets : List (List String)) (min_support : ℚ) :
    List (List String) :=
  (itemUniverse baskets).sublists.filter
    (fun s => !s.isEmpty && decide (min_support ≤ support baskets s))

/-- Modelled from the spec: `association_rules(frequent_itemsets,
metric="confidence", min_threshold)` splits each frequent itemset of two or
more items into antecedent/consequent, with
confidence = support(itemset)/support(antecedent) and
lift = confidence/support(consequent), retaining the rule when confidence
reaches the threshold (mlxtend code is not part of this repository). -/
def associationRules (baskets : List (List String))
    (freq : List (List String)) (min_conf : ℚ) : List Rule :=
  (freq.filter (fun s => decide (2 ≤ s.length))).flatMap (fun s =>
    (s.sublists.filter (fun a => !a.isEmpty && decide (a.length < s.length))).filterMap
      (fun a =>
        if min_conf ≤ support baskets s / support baskets a then
          some ⟨a, s.filter (fun x => decide (x ∉ a)), support baskets s,
            support baskets s / support baskets a,
            (support baskets s / support baskets a) /
              support baskets (s.filter (fun x => decide (x ∉ a)))⟩
        else none))

/-- `MarketBasketAnalyzer.fit(baskets)`: mine frequent itemsets, then derive
association rules when any itemset was found, else an empty rule set. -/
def mba_fit (baskets : List (List String)) (min_support min_conf : ℚ) :
    List Rule :=
  if (frequentItemsets baskets min_support).isEmpty then []
  else associationRules baskets (frequentItemsets baskets min_support) min_conf

/-- C5: every rule retained by `MarketBasketAnalyzer.fit` has confidence at
least the configured minimum confidence and carries the support of a mined
itemset, which is at least the configured minimum support; and when no
itemset clears the support threshold the rule set is empty (not an error). -/
theorem mba_fit_thresholds (baskets : List (List String)) (ms mc : ℚ) :
    (∀ r ∈ mba_fit baskets ms mc,
      mc ≤ r.confidence ∧ ms ≤ r.support ∧
      ∃ s ∈ frequentItemsets baskets ms, r.support = support baskets s) ∧
    (frequentItemsets baskets ms = [] → mba_fit baskets ms mc = []) := by
  constructor
  · intro r h
    unfold mba_fit at h
    by_cases h0 : (frequentItemsets baskets ms).isEmpty
    · rw [if_pos h0] at h; exact absurd h (List.not_mem_nil r)
    rw [if_neg h0] at h
    obtain ⟨s, hs, hr⟩ := List.mem_flatMap.mp h
    obtain ⟨a, ha, hsome⟩ := List.mem_filterMap.mp hr
    have hs2 : s ∈ frequentItemsets baskets ms := (List.mem_filter.mp hs).1
    have hsup : ms ≤ support baskets s := by
      have := (List.mem_filter.mp hs2).2
      rw [Bool.and_eq_true] at this
      exact of_decide_eq_true this.2
    by_cases hc : mc ≤ support baskets s / support baskets a
    · rw [if_pos hc] at hsome
      have hre := Option.some.inj hsome
      cases hre
      exact ⟨hc, hsup, s, hs2, rfl⟩
    · rw [if_neg hc] at hsome
      exact absurd hsome (by simp)
  · intro h
    unfold mba_fit
    rw [if_pos (List.isEmpty_iff.mpr h)]

/-- C6: support anti-monotonicity over the mined itemsets: if `S` and
`S ∪ {x}` (modelled as `x :: S`) are both mined frequent itemsets, the
support of the larger itemset is at most the support of `S`. -/
theorem support_anti_monotone (baskets : List (List String)) (ms : ℚ)
    (S : List String) (x : String)
    (_hS : S ∈ frequentItemsets baskets ms)
    (_hSx : (x :: S) ∈ frequentItemsets baskets ms) :
    support baskets (x :: S) ≤ support baskets S := by
  unfold support
  have hcount : supportCount baskets (x :: S) ≤ supportCount baskets S := by
    unfold supportCount
    apply List.countP_mono_left
    intro b hb hx
    have hx2 := of_decide_eq_true hx
    exact decide_eq_true (fun y hy => hx2 y (List.mem_cons_of_mem _ hy))
  rcases Nat.eq_zero_or_pos baskets.length with h0 | h0
  · rw [h0]
    simp
  · have hp : (0:ℚ) < baskets.length := by exact_mod_cast h0
    rw [div_le_div_iff_of_pos_right hp]
    exact_mod_cast hcount

/-- The two-basket list of the spec scenario restricted to its multi-item
baskets, used as the C6 witness data. -/
def basketsC6 : List (List String) := [["A", "B"], ["A", "B"]]

/-- Witness for C6: both ["B"] and "A" :: ["B"] are mined at minimum support
1/2 and the anti-monotone inequality holds there. -/
theorem support_anti_monotone_witness :
    (["B"] ∈ frequentItemsets basketsC6 (1/2)) ∧
    (("A" :: ["B"]) ∈ frequentItemsets basketsC6 (1/2)) ∧
    support basketsC6 ("A" :: ["B"]) ≤ support basketsC6 ["B"] :=
  ⟨by with_unfolding_all decide, by with_unfolding_all decide,
    support_anti_monotone basketsC6 (1/2) ["B"] "A"
      (by with_unfolding_all decide) (by with_unfolding_all decide)⟩

/-- `TotalPurchases` of a customer in `BusinessInsights.get_customer_segments`:
the count of the customer's transaction rows. -/
def totalPurchases (df : List Row) (c : Nat) : Nat :=
  (df.filter (fun r => decide (r.customerID = c))).length

/-- `ActiveDays` of a customer: the number of distinct dates among the
customer's rows. -/
def activeDays (df : List Row) (c : Nat) : Nat :=
  ((df.filter (fun r => decide (r.customerID = c))).map Row.date).dedup.length

/-- `AvgPurchasesPerDay = TotalPurchases / ActiveDays`. -/
def avgPurchasesPerDay (df : List Row) (c : Nat) : ℚ :=
  totalPurchases df c / activeDays df c

/-- `categorize_customer` from `BusinessInsights.get_customer_segments`:
High Value when total purchases reach 10 and average purchases per active day
reach 0.5, else Medium Value when total purchases reach 5, else Low Value. -/
def categorize_customer (total : Nat) (avg : ℚ) : String :=
  if 10 ≤ total ∧ (1/2 : ℚ) ≤ avg then "High Value"
  else if 5 ≤ total then "Medium Value"
  else "Low Value"

/-- The segment assigned to a customer by `get_customer_segments`. -/
def segmentOf (df : List Row) (c : Nat) : String :=
  categorize_customer (totalPurchases df c) (avgPurchasesPerDay df c)

theorem categorize_eq_high_iff (total : Nat) (avg : ℚ) :
    categorize_customer total avg = "High Value" ↔
      (10 ≤ total ∧ (1/2 : ℚ) ≤ avg) := by
  unfold categorize_customer
  by_cases h1 : 10 ≤ total ∧ (1/2 : ℚ) ≤ avg
  · rw [if_pos h1]
    exact ⟨fun _ => h1, fun _ => rfl⟩
  · rw [if_neg h1]
    by_cases h2 : 5 ≤ total
    · rw [if_pos h2]
      exact ⟨fun h => absurd h (by decide), fun h => absurd h h1⟩
    · rw [if_neg h2]
      exact ⟨fun h => absurd h (by decide), fun h => absurd h h1⟩

theorem categorize_eq_medium_iff (total : Nat) (avg : ℚ) :
    categorize_customer total avg = "Medium Value" ↔
      (¬(10 ≤ total ∧ (1/2 : ℚ) ≤ avg) ∧ 5 ≤ total) := by
  unfold categorize_customer
  by_cases h1 : 10 ≤ total ∧ (1/2 : ℚ) ≤ avg
  · rw [if_pos h1]
    exact ⟨fun h => absurd h (by decide), fun h => absurd h1 h.1⟩
  · rw [if_neg h1]
    by_cases h2 : 5 ≤ total
    · rw [if_pos h2]
      exact ⟨fun _ => ⟨h1, h2⟩, fun _ => rfl⟩
    · rw [if_neg h2]
      exact ⟨fun h => absurd h (by decide), fun h => absurd h.2 h2⟩

theorem categorize_eq_low_iff (total : Nat) (avg : ℚ) :
    categorize_customer total avg = "Low Value" ↔
      (¬(10 ≤ total ∧ (1/2 : ℚ) ≤ avg) ∧ ¬(5 ≤ total)) := by
  unfold categorize_customer
  by_cases h1 : 10 ≤ total ∧ (1/2 : ℚ) ≤ avg
  · rw [if_pos h1]
    exact ⟨fun h => absurd h (by decide), fun h => absurd h1 h.1⟩
  · rw [if_neg h1]
    by_cases h2 : 5 ≤ total
    · rw [if_pos h2]
      exact ⟨fun h => absurd h (by decide), fun h => absurd h2 h.2⟩
    · rw [if_neg h2]
      exact ⟨fun _ => ⟨h1, h2⟩, fun _ => rfl⟩

/-- C9: the segmentation classifies each customer High Value iff total
purchases reach 10 and average purchases per active day reach 0.5, else
Medium Value iff total purchases reach 5, else Low Value; and the scenario
inputs (12 purchases over 20 active days, 6 over 20, 3 with anything)
classify as High, Medium and Low Value respectively. -/
theorem customer_segmentation_spec :
    (∀ (df : List Row) (c : Nat),
      (segmentOf df c = "High Value" ↔
        10 ≤ totalPurchases df c ∧ (1/2 : ℚ) ≤ avgPurchasesPerDay df c) ∧
      (segmentOf df c = "Medium Value" ↔
        ¬(10 ≤ totalPurchases df c ∧ (1/2 : ℚ) ≤ avgPurchasesPerDay df c) ∧
          5 ≤ totalPurchases df c) ∧
      (segmentOf df c = "Low Value" ↔
        ¬(10 ≤ totalPurchases df c ∧ (1/2 : ℚ) ≤ avgPurchasesPerDay df c) ∧
          ¬(5 ≤ totalPurchases df c))) ∧
    categorize_customer 12 ((12 : ℚ)/20) = "High Value" ∧
    categorize_customer 6 ((6 : ℚ)/20) = "Medium Value" ∧
    (∀ avg : ℚ, categorize_customer 3 avg = "Low Value") := by
  refine ⟨fun df c => ⟨categorize_eq_high_iff _ _, categorize_eq_medium_iff _ _,
    categorize_eq_low_iff _ _⟩, ?_, ?_, ?_⟩
  · rw [categorize_eq_high_iff]
    constructor
    · norm_num
    · norm_num
  · rw [categorize_eq_medium_iff]
    constructor
    · rintro ⟨h, -⟩
      exact absurd h (by norm_num)
    · norm_num
  · intro avg
    rw [categorize_eq_low_iff]
    constructor
    · rintro ⟨h, -⟩
      exact absurd h (by norm_num)
    · norm_num

/-- Descending order on (product, score) pairs, the key of python
`sort(key=lambda x: x[1], reverse=True)` used by the collaborative-filtering
and hybrid recommenders. -/
def scoreOrd (a b : String × ℚ) : Prop := b.2 ≤ a.2

instance : DecidableRel scoreOrd := fun a b => by
  unfold scoreOrd; exact inferInstance

instance : IsTotal (String × ℚ) scoreOrd := by
  constructor
  intro a b
  unfold scoreOrd
  exact le_total b.2 a.2

instance : IsTrans (String × ℚ) scoreOrd := by
  constructor
  intro a b c hab hbc
  unfold scoreOrd at *
  exact hbc.trans hab

/-- The fitted state of `CollaborativeFilteringRecommender`: the user-item
matrix index and rows, the product columns, and the SVD factor matrices
(float entries modelled as rationals; the factorization itself is numerical
and is not modelled). -/
structure CFModel where
  userIndex : List Nat
  userItem : List (List ℚ)
  products : List String
  userFactors : List (List ℚ)
  itemFactors : List (List ℚ)

/-- `np.dot` on vectors modelled as rational lists. -/
def dotQ (v w : List ℚ) : ℚ := ((v.zip w).map (fun p => p.1 * p.2)).sum

/-- The emission loop of `get_user_recommendations`: walk the sorted scores,
append products not already purchased, stop once `top_n` are emitted. -/
def cfLoop (top_n : Nat) : List (String × ℚ) → List String → Nat → List (String × ℚ)
  | [], _, _ => []
  | p :: ps, purchased, len =>
    if p.1 ∈ purchased then cfLoop top_n ps purchased len
    else if top_n ≤ len + 1 then [p]
    else p :: cfLoop top_n ps purchased (len + 1)

/-- `CollaborativeFilteringRecommender.get_user_recommendations(user_id,
top_n)`: an unknown user id returns the empty list at once; otherwise score
every product by the dot product of its item factors with the user's factor
vector, sort descending and emit up to `top_n` unpurchased products. -/
def get_user_recommendations (m : CFModel) (user_id : Nat) (top_n : Nat) :
    List (String × ℚ) :=
  if user_id ∈ m.userIndex then
    cfLoop top_n
      (List.insertionSort scoreOrd
        (m.products.zip (m.itemFactors.map
          (fun f => dotQ f (m.userFactors.getD (m.userIndex.indexOf user_id) [])))))
      (((m.products.zip (m.userItem.getD (m.userIndex.indexOf user_id) [])).filter
          (fun pv => decide (0 < pv.2))).map Prod.fst)
      0
  else []

/-- `CollaborativeFilteringRecommender.get_product_similarity(product,
top_n)`: an unknown product returns the empty list at once; otherwise pair
every other product with its similarity to the query product's item-factor
vector, sort descending and truncate to `top_n`.  The cosine similarity over
floats is abstracted as the parameter `sim`. -/
def get_product_similarity (sim : List ℚ → List ℚ → ℚ) (m : CFModel)
    (product : String) (top_n : Nat) : List (String × ℚ) :=
  if product ∈ m.products then
    (List.insertionSort scoreOrd
      ((m.products.enum.filter (fun iq => decide (iq.2 ≠ product))).map
        (fun iq => (iq.2, sim (m.itemFactors.getD (m.products.indexOf product) [])
          (m.itemFactors.getD iq.1 []))))).take top_n
  else []

/-- C2 (amended): a product-similarity query for a product absent from the
fitted matrix and a user-recommendation query for a customer absent from the
fitted matrix both return the plain empty list, the same value as a normal
empty result, rather than a typed UnknownProduct / UnknownCustomer failure. -/
theorem cf_unknown_returns_empty (sim : List ℚ → List ℚ → ℚ) (m : CFModel)
    (product : String) (user_id : Nat) (top_n : Nat)
    (h1 : product ∉ m.products) (h2 : user_id ∉ m.userIndex) :
    get_product_similarity sim m product top_n = [] ∧
    get_user_recommendations m user_id top_n = [] := by
  constructor
  · unfold get_product_similarity
    rw [if_neg h1]
  · unfold get_user_recommendations
    rw [if_neg h2]

/-- A concrete fitted collaborative-filtering model over products A and B
with a single user 1 who purchased both. -/
def cfEx : CFModel :=
  ⟨[1], [[1, 1]], ["A", "B"], [[1]], [[1], [0]]⟩

/-- Witness for the amended C2 at a concrete fitted model, an unknown
product and an unknown customer. -/
theorem cf_unknown_returns_empty_witness :
    ("Zebra" ∉ cfEx.products) ∧ (99 ∉ cfEx.userIndex) ∧
    (get_product_similarity dotQ cfEx "Zebra" 5 = [] ∧
      get_user_recommendations cfEx 99 5 = []) :=
  ⟨by decide, by decide,
    cf_unknown_returns_empty dotQ cfEx "Zebra" 99 5 (by decide) (by decide)⟩

/-- Counterexample to C2 as stated: the queries return no typed failure at
all — the unknown-product and unknown-customer calls evaluate to the plain
empty list, exactly the value a grounded query with no qualifying results
returns (user 1 has purchased every product, so their normal
recommendation result is also the indistinguishable empty list). -/
theorem cf_unknown_not_typed_error_counterexample :
    get_product_similarity dotQ cfEx "Zebra" 5 = [] ∧
    get_user_recommendations cfEx 99 5 = [] ∧
    get_user_recommendations cfEx 1 5 = [] := by
  refine ⟨rfl, rfl, ?_⟩
  with_unfolding_all decide

/-- Python dict assignment `combined_scores[product_name] = record` modelled
on an insertion-ordered association list: an existing key keeps its position
and gets the new value, a new key is appended. -/
def dictSet (d : List (String × ℚ)) (k : String) (v : ℚ) : List (String × ℚ) :=
  if d.any (fun e => decide (e.1 = k)) then
    d.map (fun e => if e.1 = k then (e.1, v) else e)
  else d ++ [(k, v)]

/-- Python `combined_scores[product_name]['score'] += cf_score` with the
absent-key branch appending a fresh record. -/
def dictAdd (d : List (String × ℚ)) (k : String) (v : ℚ) : List (String × ℚ) :=
  if d.any (fun e => decide (e.1 = k)) then
    d.map (fun e => if e.1 = k then (e.1, e.2 + v) else e)
  else d ++ [(k, v)]

/-- The merge of `HybridRecommender.get_recommendations`: one pass over the
market-basket records storing `confidence * mba_weight`, then one pass over
the collaborative-filtering records adding `similarity * cf_weight` to
existing products and appending new ones. -/
def hybrid_combine (w_mba w_cf : ℚ) (mba_recs cf_recs : List (String × ℚ)) :
    List (String × ℚ) :=
  cf_recs.foldl (fun d ps => dictAdd d ps.1 (ps.2 * w_cf))
    (mba_recs.foldl (fun d pc => dictSet d pc.1 (pc.2 * w_mba)) [])

/-- `HybridRecommender.get_recommendations(product, top_n)` over the two
sub-model outputs: pull `top_n * 2` candidates from each sub-model, merge by
product identity with weighted scores, sort by combined score descending and
truncate to `top_n`. -/
def hybrid_get_recommendations (w_mba w_cf : ℚ)
    (mbaOut cfOut : Nat → List (String × ℚ)) (top_n : Nat) :
    List (String × ℚ) :=
  (List.insertionSort scoreOrd
    (hybrid_combine w_mba w_cf (mbaOut (top_n * 2)) (cfOut (top_n * 2)))).take top_n

/-- The hybrid recommender composed with the actual sub-models: the
market-basket candidates are `get_recommendations(product, n)` scored by
confidence, the collaborative candidates `get_product_similarity(product, n)`
scored by similarity. -/
def hybrid_model_recommendations (w_mba w_cf : ℚ) (rules : List Rule)
    (sim : List ℚ → List ℚ → ℚ) (m : CFModel) (product : String)
    (top_n : Nat) : List (String × ℚ) :=
  hybrid_get_recommendations w_mba w_cf
    (fun n => (get_recommendations rules product n).map
      (fun rec => (rec.product, rec.confidence)))
    (fun n => get_product_similarity sim m product n) top_n

theorem dictAdd_key_eq (d : List (String × ℚ)) (k : String) (v : ℚ) :
    ∀ e ∈ dictAdd d k v, e.1 ∈ d.map Prod.fst ∨ e.1 = k := by
  intro e he
  unfold dictAdd at he
  by_cases hany : d.any (fun e => decide (e.1 = k))
  · rw [if_pos hany] at he
    rw [List.mem_map] at he
    obtain ⟨e2, he2, hfe⟩ := he
    left
    rw [← hfe]
    by_cases hk : e2.1 = k
    · rw [if_pos hk]
      show e2.1 ∈ d.map Prod.fst
      exact List.mem_map_of_mem Prod.fst he2
    · rw [if_neg hk]
      exact List.mem_map_of_mem Prod.fst he2
  · rw [if_neg hany] at he
    rcases List.mem_append.mp he with h | h
    · left; exact List.mem_map_of_mem Prod.fst h
    · right
      rw [List.mem_singleton] at h
      rw [h]

theorem mem_dictAdd_of_ne (d : List (String × ℚ)) (k : String) (v : ℚ)
    (p : String) (x : ℚ) (hne : p ≠ k) (hm : (p, x) ∈ d) :
    (p, x) ∈ dictAdd d k v := by
  unfold dictAdd
  by_cases hany : d.any (fun e => decide (e.1 = k))
  · rw [if_pos hany]
    have hf : (if (p, x).1 = k then ((p, x).1, (p, x).2 + v) else (p, x)) = (p, x) :=
      if_neg hne
    rw [← hf]
    exact List.mem_map_of_mem _ hm
  · rw [if_neg hany]
    exact List.mem_append_left _ hm

theorem foldl_dictAdd_preserve (w : ℚ) (p : String) (x : ℚ) :
    ∀ (cf d : List (String × ℚ)), (∀ e ∈ cf, e.1 ≠ p) → (p, x) ∈ d →
    (p, x) ∈ cf.foldl (fun d ps => dictAdd d ps.1 (ps.2 * w)) d := by
  intro cf
  induction cf with
  | nil => intro d _ hm; exact hm
  | cons e cf ih =>
    intro d hne hm
    rw [List.foldl_cons]
    exact ih _ (fun e2 he2 => hne e2 (List.mem_cons_of_mem _ he2))
      (mem_dictAdd_of_ne d e.1 (e.2 * w) p x
        (fun h => hne e (List.mem_cons_self _ _) h.symm) hm)

theorem foldl_dictAdd_insert (w : ℚ) (p : String) (s x : ℚ) :
    ∀ (cf d : List (String × ℚ)), (cf.map Prod.fst).Nodup → (p, s) ∈ cf →
    (p, x) ∈ d →
    (p, x + s * w) ∈ cf.foldl (fun d ps => dictAdd d ps.1 (ps.2 * w)) d := by
  intro cf
  induction cf with
  | nil => intro d _ hs _; exact absurd hs (List.not_mem_nil _)
  | cons e cf ih =>
    intro d hnd hs hm
    rw [List.map_cons, List.nodup_cons] at hnd
    rw [List.foldl_cons]
    rcases List.mem_cons.mp hs with h | h
    · have hk : e.1 = p := by rw [← h]
      have hv : e.2 = s := by rw [← h]
      have hmem : (p, x + s * w) ∈ dictAdd d e.1 (e.2 * w) := by
        unfold dictAdd
        have hany : d.any (fun e2 => decide (e2.1 = e.1)) := by
          rw [List.any_eq_true]
          exact ⟨(p, x), hm, decide_eq_true (by rw [hk])⟩
        rw [if_pos hany]
        have hf : (if (p, x).1 = e.1 then ((p, x).1, (p, x).2 + e.2 * w)
            else (p, x)) = (p, x + s * w) := by
          rw [if_pos (by rw [hk])]
          rw [hv]
        rw [← hf]
        exact List.mem_map_of_mem _ hm
      refine foldl_dictAdd_preserve w p (x + s * w) cf _ ?_ hmem
      intro e2 he2 heq
      apply hnd.1
      rw [hk, ← heq]
      exact List.mem_map_of_mem Prod.fst he2
    · have hke : e.1 ≠ p := by
        intro heq
        apply hnd.1
        rw [heq]
        exact List.mem_map_of_mem Prod.fst h
      exact ih _ hnd.2 h
        (mem_dictAdd_of_ne d e.1 (e.2 * w) p x (fun h2 => hke h2.symm) hm)

theorem foldl_dictAdd_insert_new (w : ℚ) (p : String) (s : ℚ) :
    ∀ (cf d : List (String × ℚ)), (cf.map Prod.fst).Nodup → (p, s) ∈ cf →
    (∀ e ∈ d, e.1 ≠ p) →
    (p, s * w) ∈ cf.foldl (fun d ps => dictAdd d ps.1 (ps.2 * w)) d := by
  intro cf
  induction cf with
  | nil => intro d _ hs _; exact absurd hs (List.not_mem_nil _)
  | cons e cf ih =>
    intro d hnd hs hd
    rw [List.map_cons, List.nodup_cons] at hnd
    rw [List.foldl_cons]
    rcases List.mem_cons.mp hs with h | h
    · have hk : e.1 = p := by rw [← h]
      have hv : e.2 = s := by rw [← h]
      have hmem : (p, s * w) ∈ dictAdd d e.1 (e.2 * w) := by
        unfold dictAdd
        have hany : d.any (fun e2 => decide (e2.1 = e.1)) = false := by
          rw [List.any_eq_false]
          intro e2 he2
          rw [decide_eq_true_eq, hk]
          exact hd e2 he2
        rw [if_neg (by rw [hany]; exact Bool.false_ne_true)]
        apply List.mem_append_right
        rw [hk, hv]
        exact List.mem_singleton.mpr rfl
      refine foldl_dictAdd_preserve w p (s * w) cf _ ?_ hmem
      intro e2 he2 heq
      apply hnd.1
      rw [hk, ← heq]
      exact List.mem_map_of_mem Prod.fst he2
    · have hke : e.1 ≠ p := by
        intro heq
        apply hnd.1
        rw [heq]
        exact List.mem_map_of_mem Prod.fst h
      refine ih _ hnd.2 h ?_
      intro e2 he2
      rcases dictAdd_key_eq d e.1 (e.2 * w) e2 he2 with h2 | h2
      · rw [List.mem_map] at h2
        obtain ⟨e3, he3, hfe⟩ := h2
        rw [← hfe]
        exact hd e3 he3
      · rw [h2]
        exact hke

theorem foldl_dictSet_eq (w : ℚ) :
    ∀ (l acc : List (String × ℚ)),
    (∀ k ∈ l.map Prod.fst, ∀ e ∈ acc, e.1 ≠ k) → (l.map Prod.fst).Nodup →
    l.foldl (fun d pc => dictSet d pc.1 (pc.2 * w)) acc =
      acc ++ l.map (fun pc => (pc.1, pc.2 * w)) := by
  intro l
  induction l with
  | nil => intro acc _ _; simp
  | cons e l ih =>
    intro acc hdisj hnd
    rw [List.map_cons, List.nodup_cons] at hnd
    rw [List.foldl_cons]
    have hset : dictSet acc e.1 (e.2 * w) = acc ++ [(e.1, e.2 * w)] := by
      unfold dictSet
      have hany : acc.any (fun e2 => decide (e2.1 = e.1)) = false := by
        rw [List.any_eq_false]
        intro e2 he2
        rw [decide_eq_true_eq]
        exact hdisj e.1 (by rw [List.map_cons]; exact List.mem_cons_self _ _) e2 he2
      rw [if_neg (by rw [hany]; exact Bool.false_ne_true)]
    rw [hset]
    rw [ih (acc ++ [(e.1, e.2 * w)]) ?_ hnd.2]
    · rw [List.map_cons, List.append_assoc]
      rfl
    · intro k hk e2 he2
      rcases List.mem_append.mp he2 with h2 | h2
      · exact hdisj k (by rw [List.map_cons]; exact List.mem_cons_of_mem _ hk) e2 h2
      · rw [List.mem_singleton] at h2
        rw [h2]
        intro heq
        apply hnd.1
        rw [← heq] at hk
        exact hk

/-- C7: the hybrid recommendation pulls `2 * top_n` candidates from each
sub-model, merges by product identity summing
`confidence * weight_mba + similarity * weight_cf` (a product present in
only one list keeps its single weighted term), sorts descending by combined
score and truncates to `top_n`; a product present in both sub-model outputs
gets exactly the weighted sum of its two sub-scores. -/
theorem hybrid_recommendations_spec (w1 w2 : ℚ)
    (mbaOut cfOut : Nat → List (String × ℚ)) (top_n : Nat) (p : String)
    (c s : ℚ)
    (hm : ((mbaOut (top_n * 2)).map Prod.fst).Nodup)
    (hc : ((cfOut (top_n * 2)).map Prod.fst).Nodup) :
    hybrid_get_recommendations w1 w2 mbaOut cfOut top_n =
      (List.insertionSort scoreOrd
        (hybrid_combine w1 w2 (mbaOut (top_n * 2)) (cfOut (top_n * 2)))).take top_n ∧
    (hybrid_get_recommendations w1 w2 mbaOut cfOut top_n).length ≤ top_n ∧
    (hybrid_get_recommendations w1 w2 mbaOut cfOut top_n).Pairwise scoreOrd ∧
    ((p, c) ∈ mbaOut (top_n * 2) → (p, s) ∈ cfOut (top_n * 2) →
      (p, c * w1 + s * w2) ∈
        hybrid_combine w1 w2 (mbaOut (top_n * 2)) (cfOut (top_n * 2))) ∧
    ((p, c) ∈ mbaOut (top_n * 2) → (∀ e ∈ cfOut (top_n * 2), e.1 ≠ p) →
      (p, c * w1) ∈
        hybrid_combine w1 w2 (mbaOut (top_n * 2)) (cfOut (top_n * 2))) ∧
    ((∀ e ∈ mbaOut (top_n * 2), e.1 ≠ p) → (p, s) ∈ cfOut (top_n * 2) →
      (p, s * w2) ∈
        hybrid_combine w1 w2 (mbaOut (top_n * 2)) (cfOut (top_n * 2))) ∧
    (∀ (rules : List Rule) (sim : List ℚ → List ℚ → ℚ) (m : CFModel)
      (q : String),
      hybrid_model_recommendations w1 w2 rules sim m q top_n =
        hybrid_get_recommendations w1 w2
          (fun n => (get_recommendations rules q n).map
            (fun rec => (rec.product, rec.confidence)))
          (fun n => get_product_similarity sim m q n) top_n) := by
  have hd1 : (mbaOut (top_n * 2)).foldl
      (fun d pc => dictSet d pc.1 (pc.2 * w1)) [] =
      (mbaOut (top_n * 2)).map (fun pc => (pc.1, pc.2 * w1)) := by
    have := foldl_dictSet_eq w1 (mbaOut (top_n * 2)) []
      (fun k _ e he => absurd he (List.not_mem_nil e)) hm
    rw [this]
    rfl
  refine ⟨rfl, ?_, ?_, ?_, ?_, ?_, fun rules sim m q => rfl⟩
  · unfold hybrid_get_recommendations
    exact List.length_take_le top_n _
  · unfold hybrid_get_recommendations
    exact (List.sorted_insertionSort scoreOrd _).sublist (List.take_sublist top_n _)
  · intro hpm hpc
    unfold hybrid_combine
    rw [hd1]
    exact foldl_dictAdd_insert w2 p s (c * w1) _ _ hc hpc
      (List.mem_map_of_mem (fun pc => (pc.1, pc.2 * w1)) hpm)
  · intro hpm hnc
    unfold hybrid_combine
    rw [hd1]
    exact foldl_dictAdd_preserve w2 p (c * w1) _ _ hnc
      (List.mem_map_of_mem (fun pc => (pc.1, pc.2 * w1)) hpm)
  · intro hnm hpc
    unfold hybrid_combine
    rw [hd1]
    refine foldl_dictAdd_insert_new w2 p s _ _ hc hpc ?_
    intro e he
    rw [List.mem_map] at he
    obtain ⟨e2, he2, hfe⟩ := he
    rw [← hfe]
    exact hnm e2 he2

/-- The market-basket sub-model output used by the C7 witness. -/
def mbaOutEx : Nat → List (String × ℚ) := fun _ => [("B", 1), ("C", 1)]

/-- The collaborative-filtering sub-model output used by the C7 witness. -/
def cfOutEx : Nat → List (String × ℚ) := fun _ => [("B", 1), ("D", 1)]

/-- Witness for C7 at weights 3/5 and 2/5 with product B present in both
sub-model outputs. -/
theorem hybrid_recommendations_spec_witness :
    hybrid_get_recommendations (3/5) (2/5) mbaOutEx cfOutEx 2 =
      (List.insertionSort scoreOrd
        (hybrid_combine (3/5) (2/5) (mbaOutEx (2 * 2)) (cfOutEx (2 * 2)))).take 2 ∧
    (hybrid_get_recommendations (3/5) (2/5) mbaOutEx cfOutEx 2).length ≤ 2 ∧
    (hybrid_get_recommendations (3/5) (2/5) mbaOutEx cfOutEx 2).Pairwise scoreOrd ∧
    (("B", (1:ℚ)) ∈ mbaOutEx (2 * 2) → ("B", (1:ℚ)) ∈ cfOutEx (2 * 2) →
      ("B", (1:ℚ) * (3/5) + 1 * (2/5)) ∈
        hybrid_combine (3/5) (2/5) (mbaOutEx (2 * 2)) (cfOutEx (2 * 2))) ∧
    (("B", (1:ℚ)) ∈ mbaOutEx (2 * 2) → (∀ e ∈ cfOutEx (2 * 2), e.1 ≠ "B") →
      ("B", (1:ℚ) * (3/5)) ∈
        hybrid_combine (3/5) (2/5) (mbaOutEx (2 * 2)) (cfOutEx (2 * 2))) ∧
    ((∀ e ∈ mbaOutEx (2 * 2), e.1 ≠ "B") → ("B", (1:ℚ)) ∈ cfOutEx (2 * 2) →
      ("B", (1:ℚ) * (2/5)) ∈
        hybrid_combine (3/5) (2/5) (mbaOutEx (2 * 2)) (cfOutEx (2 * 2))) ∧
    (∀ (rules : List Rule) (sim : List ℚ → List ℚ → ℚ) (m : CFModel)
      (q : String),
      hybrid_model_recommendations (3/5) (2/5) rules sim m q 2 =
        hybrid_get_recommendations (3/5) (2/5)
          (fun n => (get_recommendations rules q n).map
            (fun rec => (rec.product, rec.confidence)))
          (fun n => get_product_similarity sim m q n) 2) :=
  hybrid_recommendations_spec (3/5) (2/5) mbaOutEx cfOutEx 2 "B" 1 1
    (by decide) (by decide)

/-- The shared dataframe of the Transaction Store as `BusinessInsights` sees
it: the transaction rows plus the list of column names currently present
(`load_data` leaves CustomerID, Date, Product and the derived calendar
columns). -/
structure StoreDF where
  rows : List Row
  cols : List String
deriving DecidableEq

/-- The columns present after `DataPreprocessor.load_data`. -/
def baseCols : List String :=
  ["CustomerID", "Date", "Product", "Year", "Month", "DayOfWeek", "Season"]

/-- The fixed `price_mapping` table of `BusinessInsights.get_kpis`
(a product outside the catalog is given 0, where pandas maps to NaN). -/
def price_mapping (p : String) : ℚ :=
  if p = "White T-shirt" then 25
  else if p = "Blue Jeans" then 60
  else if p = "Sneakers" then 80
  else if p = "Leather Jacket" then 200
  else if p = "Sunglasses" then 50
  else if p = "Backpack" then 40
  else if p = "Hoodie" then 45
  else if p = "Formal Shirt" then 70
  else if p = "Dress Shoes" then 120
  else if p = "Smartwatch" then 300
  else 0

/-- The KPI record of `get_kpis` (the presentational date-range string and
the 2-decimal display rounding are omitted). -/
structure KPI where
  total_transactions : Nat
  unique_customers : Nat
  unique_products : Nat
  avg_basket_size : ℚ
  total_revenue : ℚ
  avg_order_value : ℚ

/-- `BusinessInsights.get_kpis`: computes the KPI record and, as a side
effect of `self.df['Price'] = self.df['Product'].map(price_mapping)`,
returns the shared dataframe with a Price column now present. -/
def get_kpis (df : StoreDF) : KPI × StoreDF :=
  (⟨df.rows.length,
    (df.rows.map Row.customerID).dedup.length,
    (df.rows.map Row.product).dedup.length,
    (df.rows.length : ℚ) / ((df.rows.map keyOf).dedup.length : ℚ),
    (df.rows.map (fun r => price_mapping r.product)).sum,
    (df.rows.map (fun r => price_mapping r.product)).sum /
      ((df.rows.map keyOf).dedup.length : ℚ)⟩,
   ⟨df.rows, if "Price" ∈ df.cols then df.cols else df.cols ++ ["Price"]⟩)

/-- Order on product statistics rows: by total purchases descending, as in
`product_stats.sort_values('TotalPurchases', ascending=False)`. -/
def statOrd (a b : String × Nat × Nat) : Prop := b.2.1 ≤ a.2.1

instance : DecidableRel statOrd := fun a b => by
  unfold statOrd; exact inferInstance

/-- Order on co-purchase / affinity tuples by their final rational metric
descending, as in the python `sort(key=..., reverse=True)` calls. -/
def pctOrd (a b : String × String × Nat × ℚ) : Prop := b.2.2.2 ≤ a.2.2.2

instance : DecidableRel pctOrd := fun a b => by
  unfold pctOrd; exact inferInstance

/-- `sorted(df['Product'].unique())`, the index of the co-occurrence
matrix. -/
def sortedProducts (rows : List Row) : List String :=
  List.insertionSort (fun a b : String => a ≤ b) ((rows.map Row.product).dedup)

/-- Total purchases of one product: `df[df['Product'] == p].shape[0]`. -/
def productTotal (rows : List Row) (p : String) : Nat :=
  (rows.filter (fun r => decide (r.product = p))).length

/-- `BusinessInsights.get_top_products`: head of the product statistics
(product, total purchases, unique customers) sorted by purchases
descending. -/
def get_top_products (df : StoreDF) (top_n : Nat) :
    List (String × Nat × Nat) × StoreDF :=
  ((List.insertionSort statOrd
      (((df.rows.map Row.product).dedup).map (fun p =>
        (p, productTotal df.rows p,
          ((df.rows.filter (fun r => decide (r.product = p))).map
            Row.customerID).dedup.length)))).take top_n,
   df)

/-- `BusinessInsights.get_co_purchase_insights`: every ordered product pair
with positive co-occurrence whose share of the first product's purchases
exceeds 20 percent, sorted by that percentage descending, top 10. -/
def get_co_purchase_insights (df : StoreDF) :
    List (String × String × Nat × ℚ) × StoreDF :=
  ((List.insertionSort pctOrd
      ((sortedProducts df.rows).flatMap (fun p1 =>
        (sortedProducts df.rows).filterMap (fun p2 =>
          if p1 ≠ p2 ∧ 0 < coOccurrence df.rows p1 p2 ∧
              (20 : ℚ) < (coOccurrence df.rows p1 p2 : ℚ) /
                (productTotal df.rows p1 : ℚ) * 100 then
            some (p1, p2, coOccurrence df.rows p1 p2,
              (coOccurrence df.rows p1 p2 : ℚ) /
                (productTotal df.rows p1 : ℚ) * 100)
          else none)))).take 10,
   df)

/-- Purchases of a product within a season, one cell of the grouped
`seasonal_data` frame. -/
def seasonCountP (seasonOf : Nat → String) (rows : List Row)
    (s p : String) : Nat :=
  (rows.filter (fun r => decide (seasonOf r.date = s ∧ r.product = p))).length

/-- `idxmax` over a grouped count: the first product attaining the maximal
count, none for an empty group. -/
def argmaxCount (f : String → Nat) : List String → Option String
  | [] => none
  | x :: xs => some (xs.foldl (fun best y => if f best < f y then y else best) x)

/-- `BusinessInsights.get_seasonal_insights`: per-season champion products
(with their purchase counts) and per-product seasonal trend counts.  The
Season column derived from the date is abstracted as `seasonOf`. -/
def get_seasonal_insights (seasonOf : Nat → String) (df : StoreDF) :
    (List (String × String × Nat) × List (String × Nat × Nat × Nat × Nat)) ×
      StoreDF :=
  ((( ["Spring", "Summer", "Fall", "Winter"].filterMap (fun s =>
      match argmaxCount (fun p => seasonCountP seasonOf df.rows s p)
          (sortedProducts (df.rows.filter
            (fun r => decide (seasonOf r.date = s)))) with
      | none => none
      | some p => some (s, p, seasonCountP seasonOf df.rows s p))),
    ((df.rows.map Row.product).dedup).map (fun p =>
      (p, seasonCountP seasonOf df.rows "Spring" p,
        seasonCountP seasonOf df.rows "Summer" p,
        seasonCountP seasonOf df.rows "Fall" p,
        seasonCountP seasonOf df.rows "Winter" p))),
   df)

/-- The sorted distinct customer ids, the index of
`df.groupby('CustomerID')`. -/
def customersOf (rows : List Row) : List Nat :=
  List.insertionSort (fun a b : Nat => a ≤ b) ((rows.map Row.customerID).dedup)

/-- `BusinessInsights.get_customer_segments`: per-customer statistics with
the assigned segment, plus the segment distribution counts. -/
def get_customer_segments (df : StoreDF) :
    (List (Nat × Nat × Nat × ℚ × String) × List (String × Nat)) × StoreDF :=
  (((customersOf df.rows).map (fun c =>
      (c, totalPurchases df.rows c, activeDays df.rows c,
        avgPurchasesPerDay df.rows c, segmentOf df.rows c)),
    ["High Value", "Medium Value", "Low Value"].map (fun s =>
      (s, ((customersOf df.rows).filter
        (fun c => decide (segmentOf df.rows c = s))).length))),
   df)

/-- `BusinessInsights.get_product_affinity_network`: nodes are the distinct
products; edges are ordered product pairs with co-occurrence above 5,
weighted by the count and by its share of the source product's purchases,
sorted by that strength descending, top 20. -/
def get_product_affinity_network (df : StoreDF) :
    (List String × List (String × String × Nat × ℚ)) × StoreDF :=
  (((df.rows.map Row.product).dedup,
    (List.insertionSort pctOrd
      ((sortedProducts df.rows).flatMap (fun p1 =>
        (sortedProducts df.rows).filterMap (fun p2 =>
          if p1 ≠ p2 ∧ 5 < coOccurrence df.rows p1 p2 then
            some (p1, p2, coOccurrence df.rows p1 p2,
              (coOccurrence df.rows p1 p2 : ℚ) / (productTotal df.rows p1 : ℚ))
          else none)))).take 20),
   df)

/-- C8 (amended): every Business Insights query except the KPI query is a
pure function of the dataframe returning it unchanged; the KPI query leaves
the rows unchanged but adds a Price column to the shared dataframe. -/
theorem insights_read_only_except_kpis (seasonOf : Nat → String)
    (df : StoreDF) (top_n : Nat) :
    (get_top_products df top_n).2 = df ∧
    (get_co_purchase_insights df).2 = df ∧
    (get_seasonal_insights seasonOf df).2 = df ∧
    (get_customer_segments df).2 = df ∧
    (get_product_affinity_network df).2 = df ∧
    (get_kpis df).2.rows = df.rows ∧
    (get_kpis df).2.cols =
      (if "Price" ∈ df.cols then df.cols else df.cols ++ ["Price"]) :=
  ⟨rfl, rfl, rfl, rfl, rfl, rfl, rfl⟩

/-- The loaded dataframe of `dfC1` with its post-load columns. -/
def dfStoreEx : StoreDF := ⟨dfC1, baseCols⟩

/-- Counterexample to C8 as stated: calling the KPI query does not leave the
underlying dataset unchanged — it adds a Price column
(`self.df['Price'] = ...` in `get_kpis` mutates the shared dataframe). -/
theorem get_kpis_mutates_dataset :
    (get_kpis dfStoreEx).2 ≠ dfStoreEx ∧
    (get_kpis dfStoreEx).2.cols ≠ dfStoreEx.cols ∧
    "Price" ∈ (get_kpis dfStoreEx).2.cols ∧
    "Price" ∉ dfStoreEx.cols := by
  refine ⟨?_, ?_, ?_, ?_⟩ <;> decide
